import Mathlib

/-!
Shallow embedding of the block allocator and file I/O paths of the osfs
module (src/inode.c and src/file.c).

The block bitmap becomes a `List Bool` with `true` = allocated, the
counter `nr_free_blocks` an `Int`, and the per-file extent arrays
`i_blocks_ptr` / `i_blocks_length` lists of `Int` carrying the source's
`-1` sentinel.  C loops become recursive functions.  The outer scan
loops of the two multi-block allocators advance their bitmap index by at
least one per iteration and stop once it reaches `block_count`, so a
fuel of `block_count + 1` strictly bounds the number of outer
iterations and the fuel-out branch is unreachable on every call made by
the embedding.
-/

namespace Osfs

/-- Embedding of `test_bit` on the block bitmap; every read performed by
the source is bounded by `block_count`, the bitmap's length. -/
def testBit (bm : List Bool) (i : Nat) : Bool := bm.getD i false

/-- Embedding of `set_bit` on the block bitmap. -/
def setBit (bm : List Bool) (i : Nat) : List Bool := bm.set i true

/-- Embedding of `clear_bit` on the block bitmap. -/
def clearBit (bm : List Bool) (i : Nat) : List Bool := bm.set i false

/-- Number of zero bits of the bitmap (the quantity `nr_free_blocks` is
meant to track). -/
def countZeros (bm : List Bool) : Nat := (bm.filter (fun b => !b)).length

/-- The pool state shared by all files: `block_count`, the block bitmap
and the redundant free counter of `struct osfs_sb_info`. -/
structure SbInfo where
  block_count : Nat
  block_bitmap : List Bool
  nr_free_blocks : Int
deriving DecidableEq

/-- The three-line claim step every allocator performs on a scanned
index: `set_bit(i, block_bitmap); nr_free_blocks--`. -/
def claimBlock (sb : SbInfo) (i : Nat) : SbInfo :=
  { sb with block_bitmap := setBit sb.block_bitmap i
          , nr_free_blocks := sb.nr_free_blocks - 1 }

/-- Embedding of `osfs_free_data_block` (inode.c:200-204): it
unconditionally clears the bit and increments `nr_free_blocks`. -/
def osfs_free_data_block (sb : SbInfo) (block_no : Nat) : SbInfo :=
  { sb with block_bitmap := clearBit sb.block_bitmap block_no
          , nr_free_blocks := sb.nr_free_blocks + 1 }

/-- Scan loop of `osfs_alloc_data_block` (inode.c:112-119): first zero
bit wins; `N` is the loop bound `sb_info->block_count`.  The loop runs
at most `N` iterations, so fuel `N + 1` makes the fuel-out branch
unreachable; structural recursion on fuel keeps every call
kernel-reducible. -/
def allocScan (N fuel : Nat) (sb : SbInfo) (i : Nat) : SbInfo × Option Nat :=
  match fuel with
  | 0 => (sb, none)
  | fuel + 1 =>
    if i < N then
      if testBit sb.block_bitmap i then allocScan N fuel sb (i + 1)
      else (claimBlock sb i, some i)
    else (sb, none)

/-- Embedding of `osfs_alloc_data_block` (inode.c:108-122); `none`
models the `-ENOSPC` return. -/
def osfs_alloc_data_block (sb : SbInfo) : SbInfo × Option Nat :=
  allocScan sb.block_count (sb.block_count + 1) sb 0

/-- Result of the two multi-block allocators: `ok` for 0, `enospc` for
`-ENOSPC`. -/
inductive AllocResult where
  | ok : AllocResult
  | enospc : AllocResult
deriving DecidableEq

/-- Inner run-extension loop of `osfs_alloc_multiple_data_blocks`
(inode.c:138-145).  Faithful to the source: it extends while
`test_bit(i, ...)` is TRUE (allocated-bit polarity) and it increments
`block_length[block_count]`, not `block_length[block_idx]`.  Returns
the updated pool, lengths, count, resume index and whether the needed
total was reached. -/
def amdbInner (N needed fuel : Nat) (sb : SbInfo) (lens : List Int) (count i : Nat) :
    SbInfo × List Int × Nat × Nat × Bool :=
  match fuel with
  | 0 => (sb, lens, count, i, false)
  | fuel + 1 =>
    if i < N ∧ testBit sb.block_bitmap i = true then
      let lens1 := lens.set count (lens.getD count 0 + 1)
      let sb1 := claimBlock sb i
      let count1 := count + 1
      if count1 = needed then (sb1, lens1, count1, i + 1, true)
      else amdbInner N needed fuel sb1 lens1 count1 (i + 1)
    else (sb, lens, count, i, false)

/-- Outer scan loop of `osfs_alloc_multiple_data_blocks`
(inode.c:129-148).  `block_idx` is never incremented in the source, so
it stays the value it was called with.  The source's `i--` followed by
the `for` increment resumes the outer scan exactly at the index the
inner loop stopped at. -/
def amdbOuter (N needed : Nat) (fuel : Nat) (sb : SbInfo) (nos lens : List Int)
    (count idx i : Nat) : SbInfo × List Int × List Int × AllocResult :=
  match fuel with
  | 0 => (sb, nos, lens, AllocResult.enospc)
  | fuel + 1 =>
    if i < N then
      if testBit sb.block_bitmap i then
        amdbOuter N needed fuel sb nos lens count idx (i + 1)
      else
        let sb1 := claimBlock sb i
        let nos1 := nos.set idx (Int.ofNat i)
        let lens1 := lens.set idx 1
        let count1 := count + 1
        if count1 = needed then (sb1, nos1, lens1, AllocResult.ok)
        else
          match amdbInner N needed (N + 1) sb1 lens1 count1 (i + 1) with
          | (sb2, lens2, count2, i2, done) =>
            if done then (sb2, nos1, lens2, AllocResult.ok)
            else amdbOuter N needed fuel sb2 nos1 lens2 count2 idx i2
    else (sb, nos, lens, AllocResult.enospc)

/-- Embedding of `osfs_alloc_multiple_data_blocks` (inode.c:125-151). -/
def osfs_alloc_multiple_data_blocks (sb : SbInfo) (nos lens : List Int)
    (needed : Nat) : SbInfo × List Int × List Int × AllocResult :=
  amdbOuter sb.block_count needed (sb.block_count + 1) sb nos lens 0 0 0

/-- First loop of `osfs_realloc_multiple_data_blocks` (inode.c:156-162):
sum the lengths of the leading non-`-1` entries, stopping at the first
`-1`; returns the resulting `block_idx` and `block_count`. -/
def reallocCount (lens : List Int) (needed fuel idx : Nat) (count : Int) : Nat × Int :=
  match fuel with
  | 0 => (idx, count)
  | fuel + 1 =>
    if idx < needed then
      if lens.getD idx 0 ≠ -1 then
        reallocCount lens needed fuel (idx + 1) (count + lens.getD idx 0)
      else (idx, count)
    else (idx, count)

/-- Inner run-extension loop of `osfs_realloc_multiple_data_blocks`
(inode.c:183-190): extends while the next bit is FREE (`!test_bit`) and
increments `block_length[block_idx]`. -/
def rmdbInner (N : Nat) (needed : Int) (fuel : Nat) (sb : SbInfo) (lens : List Int)
    (idx : Nat) (count : Int) (i : Nat) :
    SbInfo × List Int × Int × Nat × Bool :=
  match fuel with
  | 0 => (sb, lens, count, i, false)
  | fuel + 1 =>
    if i < N ∧ testBit sb.block_bitmap i = false then
      let sb1 := claimBlock sb i
      let lens1 := lens.set idx (lens.getD idx 0 + 1)
      let count1 := count + 1
      if count1 = needed then (sb1, lens1, count1, i + 1, true)
      else rmdbInner N needed fuel sb1 lens1 idx count1 (i + 1)
    else (sb, lens, count, i, false)

/-- Outer scan loop of `osfs_realloc_multiple_data_blocks`
(inode.c:174-194); after the inner loop the source does `i--` and
`block_idx++` and the `for` increment resumes at the inner loop's stop
index with the next extent slot. -/
def rmdbOuter (N : Nat) (needed : Int) (fuel : Nat) (sb : SbInfo)
    (nos lens : List Int) (count : Int) (idx i : Nat) :
    SbInfo × List Int × List Int × AllocResult :=
  match fuel with
  | 0 => (sb, nos, lens, AllocResult.enospc)
  | fuel + 1 =>
    if i < N then
      if testBit sb.block_bitmap i then
        rmdbOuter N needed fuel sb nos lens count idx (i + 1)
      else
        let sb1 := claimBlock sb i
        let nos1 := nos.set idx (Int.ofNat i)
        let lens1 := lens.set idx 1
        let count1 := count + 1
        if count1 = needed then (sb1, nos1, lens1, AllocResult.ok)
        else
          match rmdbInner N needed (N + 1) sb1 lens1 idx count1 (i + 1) with
          | (sb2, lens2, count2, i2, done) =>
            if done then (sb2, nos1, lens2, AllocResult.ok)
            else rmdbOuter N needed fuel sb2 nos1 lens2 count2 (idx + 1) i2
    else (sb, nos, lens, AllocResult.enospc)

/-- Embedding of `osfs_realloc_multiple_data_blocks` (inode.c:153-198). -/
def osfs_realloc_multiple_data_blocks (sb : SbInfo) (nos lens : List Int)
    (needed : Nat) : SbInfo × List Int × List Int × AllocResult :=
  match reallocCount lens needed (needed + 1) 0 0 with
  | (idx, count) =>
    rmdbOuter sb.block_count (Int.ofNat needed) (sb.block_count + 1) sb nos lens count idx 0

/-- The extent-walk loop shared verbatim by `osfs_read` (file.c:43-51)
and `osfs_write` (file.c:146-154): starting from `idx_of_block`, while
it is positive and at least the current extent length, subtract that
length and move to the next extent.  Walking the array index by index
becomes structural recursion on the list; the pair is the remaining
`idx_of_block` and the extent index `idx_of_iblock`. -/
def translateLoop (lens : List Int) (idx : Int) : Int × Nat :=
  match lens with
  | [] => (idx, 0)
  | L :: rest =>
    if idx > 0 ∧ idx ≥ L then
      let r := translateLoop rest (idx - L)
      (r.1, r.2 + 1)
    else (idx, 0)

/-- Per-file metadata of `struct osfs_inode` used by the I/O paths:
`i_size`, `i_blocks`, and the extent arrays `i_blocks_ptr` (start
blocks) and `i_blocks_length` (run lengths), both with the source's
`-1` sentinel for unused slots. -/
structure OsfsInode where
  i_size : Nat
  i_blocks : Nat
  i_blocks_ptr : List Int
  i_blocks_length : List Int
deriving DecidableEq

/-- Embedding of `osfs_read` (file.c:18-60).  The data region is a flat
byte list (`sb_info->data_blocks`); the result is the copied bytes, the
returned byte count and the new `*ppos`.  Faithful to the source, the
copy is a single contiguous `copy_to_user` of the clamped length from
the translated start address. -/
def osfs_read (bs : Nat) (disk : List Nat) (ino : OsfsInode) (pos len : Nat) :
    List Nat × Nat × Nat :=
  if ino.i_blocks = 0 then ([], 0, pos)
  else if pos ≥ ino.i_size then ([], 0, pos)
  else
    let len1 := if pos + len > ino.i_size then ino.i_size - pos else len
    let idx_of_block := pos / bs
    let offset_in_block := pos % bs
    let r := translateLoop ino.i_blocks_length (Int.ofNat idx_of_block)
    let src := (ino.i_blocks_ptr.getD r.2 0).toNat * bs + r.1.toNat * bs + offset_in_block
    ((List.range len1).map (fun k => disk.getD (src + k) 0), len1, pos + len1)

/-- Byte-by-byte store of `buf` into the data region starting at `dst`
(the `copy_from_user` of one chunk). -/
def writeToDisk (disk : List Nat) (dst : Nat) (buf : List Nat) : List Nat :=
  match buf with
  | [] => disk
  | b :: rest => writeToDisk (disk.set dst b) (dst + 1) rest

/-- Chunked copy loop of `osfs_write` (file.c:143-163): translate the
current offset, copy `min(len, BLOCK_SIZE - offset_in_block)` bytes,
advance.  Each iteration consumes at least one byte when `bs > 0`, so
fuel `len` is exact; the result is the new data region and `*ppos`. -/
def writeCopyLoop (bs : Nat) (nos lens : List Int) (fuel : Nat)
    (disk : List Nat) (pos : Nat) (buf : List Nat) (len : Nat) :
    List Nat × Nat :=
  match fuel with
  | 0 => (disk, pos)
  | fuel + 1 =>
    if len > 0 then
      let idx_of_block := pos / bs
      let offset_in_block := pos % bs
      let r := translateLoop lens (Int.ofNat idx_of_block)
      let dst := (nos.getD r.2 0).toNat * bs + r.1.toNat * bs + offset_in_block
      let write_len := if len > bs - offset_in_block then bs - offset_in_block else len
      writeCopyLoop bs nos lens fuel (writeToDisk disk dst (buf.take write_len))
        (pos + write_len) (buf.drop write_len) (len - write_len)
    else (disk, pos)

/-- Return marker of `osfs_write`: bytes written, or `-ENOSPC`. -/
inductive WriteRet where
  | written : Nat → WriteRet
  | enospc : WriteRet
deriving DecidableEq

/-- Tail of `osfs_write` after the growth step (file.c:138-163):
`i_size = *ppos + len`, then the chunked copy loop. -/
def writeCommit (bs : Nat) (sb : SbInfo) (disk : List Nat) (ino : OsfsInode)
    (pos : Nat) (buf : List Nat) :
    SbInfo × List Nat × OsfsInode × Nat × WriteRet :=
  let len := buf.length
  let ino1 := { ino with i_size := pos + len }
  let r := writeCopyLoop bs ino1.i_blocks_ptr ino1.i_blocks_length len disk pos buf len
  (sb, r.1, ino1, r.2, WriteRet.written len)

/-- Embedding of `osfs_write` (file.c:76-181).  `block_needed` follows
file.c:96; on growth the extent arrays are created (all `-1`) or
extended (new slots `-1`) exactly as file.c:99-116, then
`osfs_realloc_multiple_data_blocks` runs; its `-ENOSPC` is returned
with the pool left as the failed call left it (the source performs no
rollback) and `i_blocks`, `i_size`, `*ppos` unchanged. -/
def osfs_write (bs : Nat) (sb : SbInfo) (disk : List Nat) (ino : OsfsInode)
    (pos : Nat) (buf : List Nat) :
    SbInfo × List Nat × OsfsInode × Nat × WriteRet :=
  let len := buf.length
  let block_needed := (pos + len) / bs + (if (pos + len) % bs = 0 then 0 else 1)
  if ino.i_blocks < block_needed then
    let nos0 := ino.i_blocks_ptr.take ino.i_blocks ++
      List.replicate (block_needed - ino.i_blocks) (-1 : Int)
    let lens0 := ino.i_blocks_length.take ino.i_blocks ++
      List.replicate (block_needed - ino.i_blocks) (-1 : Int)
    match osfs_realloc_multiple_data_blocks sb nos0 lens0 block_needed with
    | (sb1, nos1, lens1, AllocResult.enospc) =>
      (sb1, disk, { ino with i_blocks_ptr := nos1, i_blocks_length := lens1 },
        pos, WriteRet.enospc)
    | (sb1, nos1, lens1, AllocResult.ok) =>
      writeCommit bs sb1 disk
        { ino with i_blocks := block_needed, i_blocks_ptr := nos1
                 , i_blocks_length := lens1 } pos buf
  else
    writeCommit bs sb disk ino pos buf

/-- Inner loop of the reclaim step of `osfs_unlink` (file.c:211-213):
free blocks `base + j` for `j = 0 .. len - 1`. -/
def freeExtentLoop (fuel : Nat) (sb : SbInfo) (base j len : Nat) : SbInfo :=
  match fuel with
  | 0 => sb
  | fuel + 1 =>
    if j < len then freeExtentLoop fuel (osfs_free_data_block sb (base + j)) base (j + 1) len
    else sb

/-- Outer reclaim loop of `osfs_unlink` (file.c:210-216): for each
`i < i_blocks`, free the extent's blocks (a `-1` length runs zero
iterations, as `j < -1` is false in the source) and set both array
entries to `-1`. -/
def unlinkLoop (fuel : Nat) (sb : SbInfo) (nos lens : List Int) (i nblocks : Nat) :
    SbInfo × List Int × List Int :=
  match fuel with
  | 0 => (sb, nos, lens)
  | fuel + 1 =>
    if i < nblocks then
      let len := (lens.getD i 0).toNat
      let sb1 := freeExtentLoop len sb (nos.getD i 0).toNat 0 len
      unlinkLoop fuel sb1 (nos.set i (-1)) (lens.set i (-1)) (i + 1) nblocks
    else (sb, nos, lens)

/-- Embedding of the reclaim step of `osfs_unlink` (file.c:193-226).
Faithful to the source, `i_blocks` and `i_size` are not modified. -/
def osfs_unlink (sb : SbInfo) (ino : OsfsInode) : SbInfo × OsfsInode :=
  match unlinkLoop ino.i_blocks sb ino.i_blocks_ptr ino.i_blocks_length 0 ino.i_blocks with
  | (sb1, nos1, lens1) =>
    (sb1, { ino with i_blocks_ptr := nos1, i_blocks_length := lens1 })

/-! Concrete scenarios used to settle the claims that fail on the code. -/

/-- A reachable fragmented pool: allocate blocks 0 and 1, free block 0;
the bitmap is `[false, true, false, false]` with 3 free blocks. -/
def sbFragC1 : SbInfo :=
  osfs_free_data_block
    (osfs_alloc_data_block (osfs_alloc_data_block ⟨4, List.replicate 4 false, 4⟩).1).1 0

/-- Writing 8 bytes at offset 0 to an empty file on the fragmented
pool, with block 1 (bytes 4..7 of the data region) holding another
file's data `[50, 51, 52, 53]`. -/
def writeC1 : SbInfo × List Nat × OsfsInode × Nat × WriteRet :=
  osfs_write 4 sbFragC1 [0, 0, 0, 0, 50, 51, 52, 53, 0, 0, 0, 0, 0, 0, 0, 0]
    ⟨0, 0, [], []⟩ 0 [1, 2, 3, 4, 5, 6, 7, 8]

/-- Reading the 8 bytes back from the state the write produced. -/
def readC1 : List Nat × Nat × Nat := osfs_read 4 writeC1.2.1 writeC1.2.2.1 0 8

/-- The same reachable fragmented pool, followed by
`osfs_alloc_multiple_data_blocks` asking for 2 blocks. -/
def allocSeqC2 : SbInfo × List Int × List Int × AllocResult :=
  osfs_alloc_multiple_data_blocks
    (osfs_free_data_block
      (osfs_alloc_data_block (osfs_alloc_data_block ⟨4, List.replicate 4 false, 4⟩).1).1 0)
    [-1, -1] [-1, -1] 2

/-- `osfs_realloc_multiple_data_blocks` on a pool with one free block
when two are needed: the `-ENOSPC` path. -/
def reallocC3 : SbInfo × List Int × List Int × AllocResult :=
  osfs_realloc_multiple_data_blocks ⟨2, [true, false], 1⟩ [-1, -1] [-1, -1] 2

/-- `osfs_alloc_multiple_data_blocks` on bitmap `[F, T, T, F, F]` with
`needed = 3`: the inner loop extends across the allocated bits 1, 2. -/
def allocC4 : SbInfo × List Int × List Int × AllocResult :=
  osfs_alloc_multiple_data_blocks ⟨5, [false, true, true, false, false], 3⟩
    [-1, -1, -1] [-1, -1, -1] 3

/-- A 1-byte write at offset 0 to a file of size 8 owning extent
`(0, 2)`. -/
def writeC5 : SbInfo × List Nat × OsfsInode × Nat × WriteRet :=
  osfs_write 4 ⟨2, [true, true], 0⟩ (List.replicate 8 0) ⟨8, 2, [0, -1], [2, -1]⟩ 0 [99]

/-- Unlink of a file of size 3 owning extent `(0, 1)`. -/
def unlinkC6 : SbInfo × OsfsInode :=
  osfs_unlink ⟨2, [true, false], 1⟩ ⟨3, 1, [0], [1]⟩

/-- `osfs_realloc_multiple_data_blocks` with an extent list already
summing to `needed = 2` (extent `(0, 2)`) on a pool with two further
free blocks. -/
def reallocC9 : SbInfo × List Int × List Int × AllocResult :=
  osfs_realloc_multiple_data_blocks ⟨4, [true, true, false, false], 2⟩ [0, -1] [2, -1] 2

/-! Helper lemmas. -/

/-- Setting a list entry to the value `getD` already reports (with that
value as default) leaves the list unchanged. -/
theorem set_eq_self_of_getD {α : Type} (l : List α) (i : Nat) (d : α)
    (h : l.getD i d = d) : l.set i d = l := by
  induction l generalizing i with
  | nil => rfl
  | cons a t ih =>
    cases i with
    | zero => simp only [List.getD_cons_zero] at h; simp [h]
    | succ n => simp only [List.getD_cons_succ] at h; simp [ih n h]

/-- Correctness of the extent-walk loop on its intended domain: all
lengths positive and the logical block index covered by the list. -/
theorem translateLoop_spec : ∀ (lens : List Int) (idx : Int),
    (∀ L ∈ lens, 0 < L) → 0 ≤ idx → idx < lens.sum →
    (translateLoop lens idx).2 < lens.length ∧
    0 ≤ (translateLoop lens idx).1 ∧
    (translateLoop lens idx).1 < lens.getD (translateLoop lens idx).2 0 ∧
    (lens.take (translateLoop lens idx).2).sum + (translateLoop lens idx).1 = idx := by
  intro lens
  induction lens with
  | nil => intro idx _ h0 hs; simp only [List.sum_nil] at hs; omega
  | cons L rest ih =>
    intro idx hpos h0 hs
    have hL : 0 < L := hpos L (List.mem_cons_self L rest)
    by_cases hc : idx > 0 ∧ idx ≥ L
    · have hs' : idx - L < rest.sum := by
        simp only [List.sum_cons] at hs; omega
      obtain ⟨h1, h2, h3, h4⟩ :=
        ih (idx - L) (fun x hx => hpos x (List.mem_cons_of_mem _ hx)) (by omega) hs'
      simp only [translateLoop, if_pos hc]
      refine ⟨by simpa using Nat.succ_lt_succ h1, h2, ?_, ?_⟩
      · simpa [List.getD_cons_succ] using h3
      · simp only [List.take_succ_cons, List.sum_cons]; omega
    · have hor := not_and_or.mp hc
      simp only [translateLoop, if_neg hc]
      refine ⟨by simp, h0, ?_, by simp⟩
      simp only [List.getD_cons_zero]
      omega

/-! Claim theorems. -/

/-- C1: the round-trip property fails on the code.  On the reachable
fragmented pool `[F, T, F, F]`, writing 8 bytes at offset 0 to an empty
file succeeds and lands in the two extents `(0, 1)` and `(2, 1)`, but
the read path translates only the starting offset and copies 8
contiguous bytes, so it returns block 1's foreign data
`[50, 51, 52, 53]` in place of bytes 4..7 that were written. -/
theorem c1_roundtrip_violated :
    sbFragC1.block_bitmap = [false, true, false, false] ∧
    sbFragC1.nr_free_blocks = 3 ∧
    writeC1.2.2.2.2 = WriteRet.written 8 ∧
    writeC1.2.2.1.i_blocks_ptr = [0, 2] ∧
    writeC1.2.2.1.i_blocks_length = [1, 1] ∧
    readC1.1 = [1, 2, 3, 4, 50, 51, 52, 53] ∧
    readC1.1 ≠ [1, 2, 3, 4, 5, 6, 7, 8] := by decide

/-- C2: the counter/bitmap invariant fails under a sequence of plain
allocator and free calls.  Starting consistent (4 free blocks, 4 zero
bits), after allocate, allocate, free 0, the pool is consistent, but
`osfs_alloc_multiple_data_blocks` asking for 2 blocks on bitmap
`[F, T, F, F]` decrements `nr_free_blocks` for the already-allocated
block 1, leaving the counter at 1 while the bitmap has 2 zero bits. -/
theorem c2_counter_invariant_violated :
    ((countZeros (List.replicate 4 false) : Int) = (4 : Int)) ∧
    allocSeqC2.2.2.2 = AllocResult.ok ∧
    allocSeqC2.1.block_bitmap = [true, true, false, false] ∧
    allocSeqC2.1.nr_free_blocks = 1 ∧
    countZeros allocSeqC2.1.block_bitmap = 2 ∧
    allocSeqC2.1.nr_free_blocks ≠ (countZeros allocSeqC2.1.block_bitmap : Int) := by decide

/-- C3: allocation-failure atomicity fails on the code.  On pool
`[T, F]` with one free block, asking
`osfs_realloc_multiple_data_blocks` for 2 blocks returns `-ENOSPC`,
yet block 1 stays marked allocated, `nr_free_blocks` stays
decremented, and the caller's length array keeps the partial extent:
nothing is rolled back. -/
theorem c3_no_rollback_on_enospc :
    reallocC3.2.2.2 = AllocResult.enospc ∧
    reallocC3.1.block_bitmap = [true, true] ∧
    reallocC3.1.block_bitmap ≠ [true, false] ∧
    reallocC3.1.nr_free_blocks = 0 ∧
    reallocC3.1.nr_free_blocks ≠ 1 ∧
    reallocC3.2.2.1 = [1, -1] ∧
    reallocC3.2.2.1 ≠ [-1, -1] := by decide

/-- C4: the free-bit polarity fails in
`osfs_alloc_multiple_data_blocks`.  On bitmap `[F, T, T, F, F]` with
`needed = 3` the call reports success after consuming the
already-allocated blocks 1 and 2 toward the needed total (decrementing
`nr_free_blocks` three times though only block 0 was free), and the
recorded extent lengths `[1, 0, 0]` sum to 1, not 3 — so the blocks
counted as claimed were not free beforehand and appear in no extent. -/
theorem c4_polarity_violated :
    testBit [false, true, true, false, false] 1 = true ∧
    testBit [false, true, true, false, false] 2 = true ∧
    allocC4.2.2.2 = AllocResult.ok ∧
    allocC4.1.block_bitmap = [true, true, true, false, false] ∧
    allocC4.1.nr_free_blocks = 0 ∧
    countZeros allocC4.1.block_bitmap = 2 ∧
    allocC4.2.2.1 = [1, 0, 0] := by decide

/-- C5: write size monotonicity fails on the code.  `osfs_write` sets
`i_size = *ppos + len` unconditionally (file.c:138), so a successful
1-byte write at offset 0 to a file of size 8 shrinks `i_size` to 1
instead of keeping `max(8, 1) = 8`. -/
theorem c5_write_shrinks_size :
    writeC5.2.2.2.2 = WriteRet.written 1 ∧
    writeC5.2.2.1.i_size = 1 ∧
    writeC5.2.2.1.i_size < 8 := by decide

/-- C6: the reclaim postcondition fails on the code.  Unlinking a file
of size 3 owning extent `(0, 1)` frees its block (bitmap and counter
updated) and marks the array entries `-1`, but leaves `i_blocks = 1`
and `i_size = 3`: neither the extent list length field nor
`logical_size` is reset to 0. -/
theorem c6_unlink_leaves_metadata :
    unlinkC6.1.block_bitmap = [false, false] ∧
    unlinkC6.1.nr_free_blocks = 2 ∧
    unlinkC6.2.i_blocks_ptr = [-1] ∧
    unlinkC6.2.i_blocks_length = [-1] ∧
    unlinkC6.2.i_size = 3 ∧
    unlinkC6.2.i_size ≠ 0 ∧
    unlinkC6.2.i_blocks = 1 ∧
    unlinkC6.2.i_blocks ≠ 0 := by decide

/-- C7 (amended): the extent-walk loop is correct on lists of positive
lengths for every covered logical block index — the extent index is in
range, the local index lies inside that extent, and the lengths
consumed before it plus the local index reconstruct the input — and on
the section-8 list `[(0, 3), (4, 2)]` logical block index 4 resolves to
extent 1, local index 1, physical block 5 (not local index 0, physical
block 4 as the claim's example states). -/
theorem c7_translation_correct :
    (∀ (lens : List Int) (idx : Int),
      (∀ L ∈ lens, 0 < L) → 0 ≤ idx → idx < lens.sum →
      (translateLoop lens idx).2 < lens.length ∧
      0 ≤ (translateLoop lens idx).1 ∧
      (translateLoop lens idx).1 < lens.getD (translateLoop lens idx).2 0 ∧
      (lens.take (translateLoop lens idx).2).sum + (translateLoop lens idx).1 = idx) ∧
    translateLoop [3, 2] 4 = (1, 1) ∧
    ([0, 4] : List Int).getD (translateLoop [3, 2] 4).2 0 + (translateLoop [3, 2] 4).1 = 5 := by
  refine ⟨translateLoop_spec, by decide, by decide⟩

/-- C7 witness: the general part of the amended claim instantiated on
the section-8 list at logical block index 4. -/
theorem c7_translation_correct_witness :
    (translateLoop [3, 2] 4).2 < ([3, 2] : List Int).length ∧
    0 ≤ (translateLoop [3, 2] 4).1 ∧
    (translateLoop [3, 2] 4).1 < ([3, 2] : List Int).getD (translateLoop [3, 2] 4).2 0 ∧
    (([3, 2] : List Int).take (translateLoop [3, 2] 4).2).sum + (translateLoop [3, 2] 4).1 = 4 :=
  c7_translation_correct.1 [3, 2] 4 (by decide) (by decide) (by decide)

/-- C7 counterexample: the claim's concrete example is false on the
code — logical block index 4 in list `[(0, 3), (4, 2)]` does not
resolve to extent 1 with local index 0, and the addressed physical
block is not 4. -/
theorem c7_example_counterexample :
    translateLoop [3, 2] 4 ≠ ((0 : Int), 1) ∧
    ([0, 4] : List Int).getD (translateLoop [3, 2] 4).2 0 + (translateLoop [3, 2] 4).1 ≠ 4 := by
  decide

/-- C8: `osfs_read` returns 0 bytes (position unchanged) when the file
owns no blocks or the offset is at or past `i_size`, and otherwise
returns exactly `min(len, i_size - pos)` bytes and advances the
position by that amount. -/
theorem c8_read_count (bs : Nat) (disk : List Nat) (ino : OsfsInode) (pos len : Nat) :
    (ino.i_blocks = 0 ∨ ino.i_size ≤ pos →
      (osfs_read bs disk ino pos len).2.1 = 0 ∧
      (osfs_read bs disk ino pos len).2.2 = pos) ∧
    (ino.i_blocks ≠ 0 → pos < ino.i_size →
      (osfs_read bs disk ino pos len).2.1 = min len (ino.i_size - pos) ∧
      (osfs_read bs disk ino pos len).2.2 = pos + min len (ino.i_size - pos)) := by
  constructor
  · intro h
    by_cases hb : ino.i_blocks = 0
    · simp [osfs_read, hb]
    · have hp : pos ≥ ino.i_size := by
        rcases h with h | h
        · exact absurd h hb
        · exact h
      simp [osfs_read, hb, hp]
  · intro hb hp
    have hp' : ¬ pos ≥ ino.i_size := Nat.not_le.mpr hp
    simp only [osfs_read, hb, if_neg, if_false, hp', ite_false]
    constructor
    · split <;> omega
    · split <;> omega

/-- C8 witness: the read-count theorem at a concrete file of size 5
owning one block, reading 10 bytes at offset 2. -/
theorem c8_read_count_witness :
    (osfs_read 4 (List.replicate 8 0) ⟨5, 1, [0], [1]⟩ 2 10).2.1 =
      min 10 ((5 : Nat) - 2) ∧
    (osfs_read 4 (List.replicate 8 0) ⟨5, 1, [0], [1]⟩ 2 10).2.2 =
      2 + min 10 ((5 : Nat) - 2) :=
  (c8_read_count 4 (List.replicate 8 0) ⟨5, 1, [0], [1]⟩ 2 10).2
    (by decide) (by decide)

/-- C9: growth on an already-sufficient list fails on the code.  With
extent list `(0, 2)` already summing to `needed = 2`, the code's
early-return tests `block_count == block_needed` are only reachable
after claiming a new block, so the count jumps from 2 to 3 and never
equals 2: the call claims every remaining free block (blocks 2 and 3),
drains `nr_free_blocks` to 0, grows the length array, and returns
`-ENOSPC` instead of being a successful no-op. -/
theorem c9_sufficient_growth_not_noop :
    reallocC9.2.2.2 = AllocResult.enospc ∧
    reallocC9.2.2.2 ≠ AllocResult.ok ∧
    reallocC9.1.block_bitmap = [true, true, true, true] ∧
    reallocC9.1.nr_free_blocks = 0 ∧
    reallocC9.2.2.1 = [2, 2] := by decide

/-- C10: `osfs_free_data_block` unconditionally clears the bit and
increments `nr_free_blocks`; when the bit is already clear the bitmap
is unchanged, so a previously consistent counter ends up exceeding the
number of zero bits by one. -/
theorem c10_double_free_overcounts (sb : SbInfo) (b : Nat) :
    (osfs_free_data_block sb b).nr_free_blocks = sb.nr_free_blocks + 1 ∧
    (osfs_free_data_block sb b).block_bitmap = clearBit sb.block_bitmap b ∧
    (testBit sb.block_bitmap b = false →
      (osfs_free_data_block sb b).block_bitmap = sb.block_bitmap ∧
      (sb.nr_free_blocks = (countZeros sb.block_bitmap : Int) →
        (osfs_free_data_block sb b).nr_free_blocks =
          (countZeros ((osfs_free_data_block sb b).block_bitmap) : Int) + 1)) := by
  refine ⟨rfl, rfl, fun hfree => ?_⟩
  have hbm : clearBit sb.block_bitmap b = sb.block_bitmap :=
    set_eq_self_of_getD sb.block_bitmap b false hfree
  refine ⟨hbm, fun hc => ?_⟩
  show sb.nr_free_blocks + 1 = _
  rw [show (osfs_free_data_block sb b).block_bitmap = sb.block_bitmap from hbm, hc]

/-- C10 witness: freeing the already-free block 0 of the consistent
pool `[F, F]` (counter 2) leaves the bitmap unchanged and puts the
counter at the zero-bit count plus one. -/
theorem c10_double_free_overcounts_witness :
    (osfs_free_data_block ⟨2, [false, false], 2⟩ 0).block_bitmap =
      (⟨2, [false, false], 2⟩ : SbInfo).block_bitmap ∧
    (osfs_free_data_block ⟨2, [false, false], 2⟩ 0).nr_free_blocks =
      (countZeros ((osfs_free_data_block ⟨2, [false, false], 2⟩ 0).block_bitmap) : Int) + 1 :=
  ⟨((c10_double_free_overcounts ⟨2, [false, false], 2⟩ 0).2.2 (by decide)).1,
   ((c10_double_free_overcounts ⟨2, [false, false], 2⟩ 0).2.2 (by decide)).2 (by decide)⟩

end Osfs
